import Mathlib

/-!
Shallow embedding of the DuChat client's synchronization and unread-tracking
logic, together with theorems settling the specification claims.

The embedded code lives in two components:
 - the conversation list (load-time unread derivation, mark-as-read,
   live insert handler, direct/group chat creation);
 - the message thread (refresh load, optimistic send, poll fallback).

Store interactions are modelled by passing the relevant table contents
explicitly and parameterising each operation on the outcome of its writes;
timestamps are modelled as integers (milliseconds since the epoch, the value
of a JS Date.getTime call), and render-only data (the denormalized sender
projection, avatar fields) is omitted.
-/

namespace DuChat

/-- Model of the JS String.prototype.trim call: strip whitespace from both
ends of the string, working over the character list. -/
def jsTrim (s : String) : String :=
  String.mk (((s.data.dropWhile Char.isWhitespace).reverse.dropWhile
    Char.isWhitespace).reverse)

/-- A row of the messages table: id, conversation_id, sender_id, content,
created_at, message_type. Messages are immutable and append-only. -/
structure Message where
  id : String
  conversation_id : String
  sender_id : String
  content : String
  created_at : Int
  message_type : String
  deriving Repr, DecidableEq

/-- A row of the conversations table. -/
structure Conversation where
  id : String
  name : Option String
  is_group : Bool
  updated_at : Int
  deriving Repr, DecidableEq

/-- A row of the conversation_participants table; role and last_read_at are
optional (the direct-chat insert supplies no role, and last_read_at may be
null for a participant that never marked the conversation read). -/
structure Participant where
  conversation_id : String
  user_id : String
  role : Option String
  last_read_at : Option Int
  deriving Repr, DecidableEq

/-- The two tables the chat-creation flows read and write. -/
structure Store where
  conversations : List Conversation
  participants : List Participant
  deriving Repr, DecidableEq

/-! ### Conversation list: load-time unread derivation -/

/-- Model of the JS expression deriving the last-read time: a null
last_read_at is mapped to 0 (the epoch), otherwise the stored time is used. -/
def lastReadTimeOf : Option Int → Int
  | some t => t
  | none => 0

/-- The limit-1 descending query fetching a conversation's most recent
message: the first row (in table order) carrying the maximal created_at. -/
def mostRecentMessage : List Message → Option Message
  | [] => none
  | m :: ms =>
    match mostRecentMessage ms with
    | none => some m
    | some m' => if m'.created_at > m.created_at then some m' else some m

/-- The unread derivation performed by the conversation-list load: false when
the conversation has no message; otherwise true iff the most recent message
was sent by someone else and strictly after the current user's last-read
time. -/
def hasUnreadLoad (currentUserId : String) (last_read_at : Option Int)
    (msgs : List Message) : Bool :=
  match mostRecentMessage msgs with
  | none => false
  | some lastMessage =>
    (lastMessage.sender_id != currentUserId) &&
      decide (lastMessage.created_at > lastReadTimeOf last_read_at)

/-- Modelled from the spec: the unread flag as the specification derives it,
quantifying over every message of the conversation — hasUnread is true iff
some message m has m.sender_id different from the current user and
m.created_at strictly greater than the last-read time. Stated only to be
compared with the code's hasUnreadLoad. -/
def hasUnreadSpecDerived (currentUserId : String) (last_read_at : Option Int)
    (msgs : List Message) : Bool :=
  msgs.any fun m =>
    (m.sender_id != currentUserId) &&
      decide (m.created_at > lastReadTimeOf last_read_at)

/-! ### Concrete rows used by the counterexamples and witnesses -/

/-- A message from another user, older than the current user's latest one. -/
def exMsgOther : Message :=
  { id := "m1", conversation_id := "c", sender_id := "v", content := "hello",
    created_at := 5, message_type := "text" }

/-- A newer message sent by the current user themselves. -/
def exMsgMine : Message :=
  { id := "m2", conversation_id := "c", sender_id := "u", content := "reply",
    created_at := 10, message_type := "text" }

/-- A message from another user timestamped exactly at the epoch. -/
def exMsgEpoch : Message :=
  { id := "m0", conversation_id := "c", sender_id := "v", content := "old",
    created_at := 0, message_type := "text" }

/-! ### Theorems for C1 and C9 -/

/-- Helper: the load's unread flag holds exactly when the most recent message
exists, is from another sender, and postdates the last-read time. -/
theorem hasUnreadLoad_iff (U : String) (r : Option Int) (msgs : List Message) :
    hasUnreadLoad U r msgs = true ↔
      ∃ m, mostRecentMessage msgs = some m ∧ m.sender_id ≠ U ∧
        lastReadTimeOf r < m.created_at := by
  unfold hasUnreadLoad
  cases h : mostRecentMessage msgs with
  | none => simp
  | some m =>
    simp only [Bool.and_eq_true, bne_iff_ne, ne_eq, decide_eq_true_eq]
    constructor
    · rintro ⟨h1, h2⟩
      exact ⟨m, rfl, h1, h2⟩
    · rintro ⟨m', hm', h1, h2⟩
      cases Option.some.inj hm'
      exact ⟨h1, h2⟩

/-- C1 counterexample: with last-read time 3 and messages consisting of an
unread message from another user at time 5 followed by the current user's own
message at time 10, the spec's derivation says unread, but the load computes
no unread flag — the claim that they agree is false. -/
theorem c1_counterexample :
    hasUnreadSpecDerived "u" (some 3) [exMsgOther, exMsgMine] = true ∧
      hasUnreadLoad "u" (some 3) [exMsgOther, exMsgMine] = false := by
  decide

/-- C1 (amended): the unread flag computed by the conversation-list load
equals the spec's existential derivation restricted to the single most recent
message of the conversation — an older unread message from another user does
not count when the most recent message is the current user's own. -/
theorem c1_unread_flag_most_recent_only (U : String) (r : Option Int)
    (msgs : List Message) :
    hasUnreadLoad U r msgs =
      hasUnreadSpecDerived U r (mostRecentMessage msgs).toList := by
  unfold hasUnreadLoad hasUnreadSpecDerived
  cases h : mostRecentMessage msgs <;> simp

/-- C9 counterexample: with a null last_read_at and a most recent message
from another user timestamped exactly at the epoch (created_at = 0), the load
computes no unread flag, refuting the claim that any most-recent message from
another user counts regardless of its timestamp. -/
theorem c9_counterexample :
    mostRecentMessage [exMsgEpoch] = some exMsgEpoch ∧
      exMsgEpoch.sender_id ≠ "u" ∧
      hasUnreadLoad "u" none [exMsgEpoch] = false := by
  decide

/-- C9 (amended): when the current user's last_read_at is null the load
treats it as the epoch (time 0), so the conversation is flagged unread
exactly when its most recent message exists, was sent by another user, and
has created_at strictly greater than 0; a most recent message at or before
the epoch is not flagged. -/
theorem c9_null_last_read_is_epoch (U : String) (msgs : List Message) :
    hasUnreadLoad U none msgs = true ↔
      ∃ m, mostRecentMessage msgs = some m ∧ m.sender_id ≠ U ∧
        0 < m.created_at := by
  simpa [lastReadTimeOf] using hasUnreadLoad_iff U none msgs

/-! ### Conversation list: local entries, mark-as-read, live insert handler -/

/-- A conversation entry held in the list component's local state, with the
fields the handlers touch: id, the derived unread flag, the updated_at
timestamp the live handler overwrites, and the lastMessageTime recency key
the load sorted by. -/
structure ConvEntry where
  id : String
  hasUnread : Bool
  updated_at : Int
  lastMessageTime : Int
  deriving Repr, DecidableEq

/-- The mark-as-read handler: it returns early when the conversation id or
user id is falsy, awaits the participant-row update (outcome writeOk), and
only in the no-error branch maps the local entries, clearing hasUnread on the
entry for the given conversation. -/
def markConversationAsRead (userId conversationId : String) (writeOk : Bool)
    (conversations : List ConvEntry) : List ConvEntry :=
  if conversationId.isEmpty || userId.isEmpty then conversations
  else if writeOk then
    conversations.map fun conv =>
      if conv.id == conversationId then { conv with hasUnread := false }
      else conv
  else conversations

/-- The list component's message-insert subscription handler: when the
inserted row's sender is not the current user, map the local entries, setting
hasUnread and overwriting updated_at with the row's created_at on the entry
for the row's conversation; nothing else is touched and no reload runs. -/
def onMessageInsert (currentUserId : String) (payloadNew : Message)
    (conversations : List ConvEntry) : List ConvEntry :=
  if payloadNew.sender_id != currentUserId then
    conversations.map fun conv =>
      if conv.id == payloadNew.conversation_id then
        { conv with hasUnread := true, updated_at := payloadNew.created_at }
      else conv
  else conversations

/-- An unread conversation entry used in the C4 counterexample. -/
def exEntryX : ConvEntry :=
  { id := "X", hasUnread := true, updated_at := 10, lastMessageTime := 10 }

/-- The most recent conversation of the C5 counterexample's list. -/
def exEntryA : ConvEntry :=
  { id := "A", hasUnread := false, updated_at := 50, lastMessageTime := 50 }

/-- The stale conversation the C5 counterexample inserts into. -/
def exEntryStale : ConvEntry :=
  { id := "X", hasUnread := false, updated_at := 10, lastMessageTime := 10 }

/-- The inserted row driving the C5 counterexample. -/
def exInsertX : Message :=
  { id := "m9", conversation_id := "X", sender_id := "v", content := "new",
    created_at := 60, message_type := "text" }

/-! ### Theorems for C4 and C5 -/

/-- C4 counterexample: when the store write fails, markConversationAsRead on
conversation X leaves the list unchanged — the entry for X still carries
hasUnread = true, refuting the claim that the local flag flips to false
unconditionally, independently of the store-write outcome. -/
theorem c4_counterexample :
    markConversationAsRead "u" "X" false [exEntryX] = [exEntryX] ∧
      exEntryX.hasUnread = true := by
  decide

/-- C4 (amended): markConversationAsRead flips the local hasUnread of the
selected conversation to false only when the store write succeeds; when the
write fails, the local list is left entirely unchanged (the flag does not
flip). -/
theorem c4_mark_read_only_on_success (u cid : String) (convs : List ConvEntry)
    (hu : u.isEmpty = false) (hc : cid.isEmpty = false) :
    ((markConversationAsRead u cid true convs).all fun conv =>
        !(conv.id == cid) || !conv.hasUnread) = true ∧
      markConversationAsRead u cid false convs = convs := by
  constructor
  · unfold markConversationAsRead
    simp only [hu, hc, Bool.or_self, Bool.false_eq_true, if_false, if_true]
    rw [List.all_eq_true]
    intro conv hconv
    rcases List.mem_map.mp hconv with ⟨c, _, rfl⟩
    by_cases h : c.id = cid <;> simp [h]
  · unfold markConversationAsRead
    simp [hu, hc]

/-- Closed instance of c4_mark_read_only_on_success at a concrete
conversation list. -/
theorem c4_mark_read_only_on_success_witness :
    ((markConversationAsRead "u" "X" true [exEntryX]).all fun conv =>
        !(conv.id == "X") || !conv.hasUnread) = true ∧
      markConversationAsRead "u" "X" false [exEntryX] = [exEntryX] :=
  c4_mark_read_only_on_success "u" "X" [exEntryX] (by decide) (by decide)

/-- Helper: mapping a projection over an element-wise rewrite that preserves
the projection leaves the projected list unchanged. -/
theorem map_proj_of_preserved {α β : Type} (f : α → α) (pr : α → β)
    (l : List α) (hf : ∀ a, pr (f a) = pr a) :
    (l.map f).map pr = l.map pr := by
  induction l with
  | nil => rfl
  | cons c cs ih => simp only [List.map_cons, hf, ih]

/-- Helper: filtering after an element-wise rewrite that preserves the
predicate and fixes every element the predicate keeps gives the same
result as filtering the original list. -/
theorem filter_map_of_fixed {α : Type} (f : α → α) (g : α → Bool)
    (l : List α) (hg : ∀ a, g (f a) = g a) (hf : ∀ a, g a = true → f a = a) :
    (l.map f).filter g = l.filter g := by
  induction l with
  | nil => rfl
  | cons c cs ih =>
    rw [List.map_cons, List.filter_cons, List.filter_cons, hg]
    cases hgc : g c
    · simpa using ih
    · simpa [hf c hgc] using ih

/-- C5 counterexample: with the list [A, X] sorted by recency (A most
recent) and an insert into X by another user, the handler patches X in place
— hasUnread becomes true and updated_at becomes the row's created_at — but
the resulting list still begins with A: X does not move to the top of the
displayed order, refuting that part of the claim. -/
theorem c5_counterexample :
    onMessageInsert "u" exInsertX [exEntryA, exEntryStale] =
        [exEntryA,
          { exEntryStale with hasUnread := true, updated_at := 60 }] ∧
      (onMessageInsert "u" exInsertX [exEntryA, exEntryStale]).head?.map
          ConvEntry.id = some "A" := by
  decide

/-- C5 (amended): for an inserted row whose sender is not the current user,
the live handler updates the affected conversation's entries in place —
setting hasUnread and overwriting updated_at with the row's created_at —
leaves every other entry unchanged, and performs no full reload; but the
displayed order is preserved exactly as it was (the affected conversation
does not move to the top). -/
theorem c5_live_update_in_place (u : String) (m : Message)
    (convs : List ConvEntry) (h : m.sender_id ≠ u) :
    (onMessageInsert u m convs).map ConvEntry.id = convs.map ConvEntry.id ∧
      ((onMessageInsert u m convs).all fun conv =>
        !(conv.id == m.conversation_id) ||
          (conv.hasUnread && (conv.updated_at == m.created_at))) = true ∧
      ((onMessageInsert u m convs).filter fun conv =>
          !(conv.id == m.conversation_id)) =
        convs.filter fun conv => !(conv.id == m.conversation_id) := by
  unfold onMessageInsert
  rw [if_pos (bne_iff_ne.mpr h)]
  refine ⟨?_, ?_, ?_⟩
  · refine map_proj_of_preserved _ _ _ fun c => ?_
    by_cases hc : c.id = m.conversation_id <;> simp [hc]
  · rw [List.all_eq_true]
    intro conv hconv
    rcases List.mem_map.mp hconv with ⟨c, _, rfl⟩
    by_cases hc : c.id = m.conversation_id <;> simp [hc]
  · refine filter_map_of_fixed _ _ _ (fun c => ?_) (fun c hgc => ?_)
    · by_cases hc : c.id = m.conversation_id <;> simp [hc]
    · simp only [Bool.not_eq_eq_eq_not, Bool.not_true, beq_eq_false_iff_ne,
        ne_eq] at hgc
      simp [hgc]

/-- Closed instance of c5_live_update_in_place at the counterexample's
conversation list. -/
theorem c5_live_update_in_place_witness :
    (onMessageInsert "u" exInsertX [exEntryA, exEntryStale]).map ConvEntry.id =
        [exEntryA, exEntryStale].map ConvEntry.id ∧
      ((onMessageInsert "u" exInsertX [exEntryA, exEntryStale]).all fun conv =>
        !(conv.id == exInsertX.conversation_id) ||
          (conv.hasUnread && (conv.updated_at == exInsertX.created_at))) = true ∧
      ((onMessageInsert "u" exInsertX [exEntryA, exEntryStale]).filter fun conv =>
          !(conv.id == exInsertX.conversation_id)) =
        [exEntryA, exEntryStale].filter fun conv =>
          !(conv.id == exInsertX.conversation_id) :=
  c5_live_update_in_place "u" exInsertX [exEntryA, exEntryStale] (by decide)

/-! ### Direct chat creation -/

/-- The participant query of startDirectChat: rows whose user_id is the
current user or the target user (the disjunctive filter of the check). -/
def pairRows (me otherUserId : String) (store : Store) : List Participant :=
  store.participants.filter fun p =>
    p.user_id == me || p.user_id == otherUserId

/-- The inner join against conversations used while counting: true iff the
conversation row for cid exists and is not a group. -/
def isNonGroup (store : Store) (cid : String) : Bool :=
  match store.conversations.find? (fun c => c.id == cid) with
  | some c => !c.is_group
  | none => false

/-- The per-conversation pair count: how many of the filtered rows belong to
the non-group conversation cid. -/
def directCount (me otherUserId : String) (store : Store) (cid : String) :
    Nat :=
  ((pairRows me otherUserId store).filter fun p =>
      isNonGroup store p.conversation_id && p.conversation_id == cid).length

/-- The search over candidate keys in insertion order for a count of exactly
2: the first filtered non-group row whose conversation's pair count is 2
names the existing 1:1 conversation. -/
def existingDirectConv (me otherUserId : String) (store : Store) :
    Option String :=
  (((pairRows me otherUserId store).filter fun p =>
        isNonGroup store p.conversation_id).find? fun p =>
      directCount me otherUserId store p.conversation_id == 2).map
    Participant.conversation_id

/-- The participant rows startDirectChat inserts for a fresh conversation. -/
def directParticipants (me otherUserId freshId : String) (now : Int) :
    List Participant :=
  [{ conversation_id := freshId, user_id := me, role := none,
     last_read_at := some now },
   { conversation_id := freshId, user_id := otherUserId, role := none,
     last_read_at := some now }]

/-- The two inserts of startDirectChat's creation path: a fresh non-group
conversation row followed by the two participant rows. -/
def insertDirect (me otherUserId freshId : String) (now : Int)
    (store : Store) : Store :=
  { conversations := store.conversations ++
      [{ id := freshId, name := none, is_group := false,
         updated_at := now }],
    participants := store.participants ++
      directParticipants me otherUserId freshId now }

/-- startDirectChat: reuse the existing 1:1 conversation when the candidate
search finds one; otherwise insert a fresh non-group conversation (the id the
store assigns is the freshId parameter, the client clock is now) and the two
participant rows. Returns the selected conversation id and the new store. -/
def startDirectChat (me otherUserId freshId : String) (now : Int)
    (store : Store) : String × Store :=
  match existingDirectConv me otherUserId store with
  | some cid => (cid, store)
  | none => (freshId, insertDirect me otherUserId freshId now store)

/-! ### Lemmas about the creation path of startDirectChat -/

/-- The pair query after the creation inserts returns the old rows followed
by the two fresh participant rows. -/
theorem pairRows_insertDirect (me otherUserId freshId : String) (now : Int)
    (store : Store) :
    pairRows me otherUserId (insertDirect me otherUserId freshId now store) =
      pairRows me otherUserId store ++
        directParticipants me otherUserId freshId now := by
  unfold pairRows insertDirect directParticipants
  simp [List.filter_append]

/-- The inner join is unchanged for any conversation other than the fresh
one. -/
theorem isNonGroup_insertDirect_ne (me otherUserId freshId : String)
    (now : Int) (store : Store) (cid : String) (h : cid ≠ freshId) :
    isNonGroup (insertDirect me otherUserId freshId now store) cid =
      isNonGroup store cid := by
  unfold isNonGroup insertDirect
  simp only
  rw [List.find?_append]
  cases hf : store.conversations.find? (fun c => c.id == cid) with
  | some c => rfl
  | none =>
    have : (List.find? (fun c => c.id == cid)
        [({ id := freshId, name := none, is_group := false,
            updated_at := now } : Conversation)]) = none := by
      rw [List.find?_cons_of_neg]
      · rfl
      · simp only [beq_iff_eq]
        exact fun e => h (Eq.symm e)
    rw [this]
    rfl

/-- The inner join sees the fresh conversation as an existing non-group
conversation after the creation inserts. -/
theorem isNonGroup_insertDirect_fresh (me otherUserId freshId : String)
    (now : Int) (store : Store)
    (hc : freshId ∉ store.conversations.map Conversation.id) :
    isNonGroup (insertDirect me otherUserId freshId now store) freshId =
      true := by
  unfold isNonGroup insertDirect
  simp only
  rw [List.find?_append]
  have h1 : store.conversations.find? (fun c => c.id == freshId) = none := by
    rw [List.find?_eq_none]
    intro c hcm e
    exact hc (List.mem_map.mpr ⟨c, hcm, beq_iff_eq.mp e⟩)
  rw [h1]
  have h2 : (List.find? (fun c => c.id == freshId)
      [({ id := freshId, name := none, is_group := false,
          updated_at := now } : Conversation)]) = some
        { id := freshId, name := none, is_group := false,
          updated_at := now } := by
    rw [List.find?_cons_of_pos]
    simp
  rw [h2]
  rfl

/-- The pair count of any conversation other than the fresh one is unchanged
by the creation inserts. -/
theorem directCount_insertDirect_ne (me otherUserId freshId : String)
    (now : Int) (store : Store)
    (hp : freshId ∉ store.participants.map Participant.conversation_id)
    (cid : String) (h : cid ≠ freshId) :
    directCount me otherUserId (insertDirect me otherUserId freshId now store)
        cid = directCount me otherUserId store cid := by
  unfold directCount
  rw [pairRows_insertDirect, List.filter_append]
  have h2 : ((directParticipants me otherUserId freshId now).filter fun p =>
      isNonGroup (insertDirect me otherUserId freshId now store)
          p.conversation_id && p.conversation_id == cid) = [] := by
    unfold directParticipants
    simp only [List.filter_cons, List.filter_nil]
    have e : ((freshId == cid) : Bool) = false :=
      beq_eq_false_iff_ne.mpr fun e => h (Eq.symm e)
    simp [e]
  rw [h2, List.append_nil]
  congr 1
  apply List.filter_congr
  intro p hm
  have hpf : p.conversation_id ≠ freshId := fun e =>
    hp (List.mem_map.mpr ⟨p, (List.mem_filter.mp hm).1, e⟩)
  rw [isNonGroup_insertDirect_ne me otherUserId freshId now store _ hpf]

/-- After the creation inserts, the fresh conversation's pair count is
exactly 2: the two rows just inserted. -/
theorem directCount_insertDirect_fresh (me otherUserId freshId : String)
    (now : Int) (store : Store)
    (hc : freshId ∉ store.conversations.map Conversation.id)
    (hp : freshId ∉ store.participants.map Participant.conversation_id) :
    directCount me otherUserId (insertDirect me otherUserId freshId now store)
        freshId = 2 := by
  unfold directCount
  rw [pairRows_insertDirect, List.filter_append]
  have h1 : ((pairRows me otherUserId store).filter fun p =>
      isNonGroup (insertDirect me otherUserId freshId now store)
          p.conversation_id && p.conversation_id == freshId) = [] := by
    rw [List.filter_eq_nil_iff]
    intro p hm
    have hpf : p.conversation_id ≠ freshId := fun e =>
      hp (List.mem_map.mpr ⟨p, (List.mem_filter.mp hm).1, e⟩)
    simp [hpf]
  have h2 : ((directParticipants me otherUserId freshId now).filter fun p =>
      isNonGroup (insertDirect me otherUserId freshId now store)
          p.conversation_id && p.conversation_id == freshId) =
      directParticipants me otherUserId freshId now := by
    have h3 := isNonGroup_insertDirect_fresh me otherUserId freshId now
      store hc
    unfold directParticipants at h3 ⊢
    simp only [List.filter_cons, List.filter_nil]
    simp [h3]
  rw [h1, h2]
  rfl

/-- When the candidate search found nothing and the creation path inserted
the fresh conversation with its two participant rows, a rerun of the
candidate search finds exactly the fresh conversation. -/
theorem existingDirectConv_insertDirect (me otherUserId freshId : String)
    (now : Int) (store : Store)
    (hc : freshId ∉ store.conversations.map Conversation.id)
    (hp : freshId ∉ store.participants.map Participant.conversation_id)
    (hnone : existingDirectConv me otherUserId store = none) :
    existingDirectConv me otherUserId
        (insertDirect me otherUserId freshId now store) = some freshId := by
  unfold existingDirectConv at hnone ⊢
  have hfind := Option.map_eq_none'.mp hnone
  have hall := List.find?_eq_none.mp hfind
  rw [pairRows_insertDirect, List.filter_append]
  have hfix : ((pairRows me otherUserId store).filter fun p =>
      isNonGroup (insertDirect me otherUserId freshId now store)
        p.conversation_id) =
      (pairRows me otherUserId store).filter fun p =>
        isNonGroup store p.conversation_id := by
    apply List.filter_congr
    intro p hm
    have hpf : p.conversation_id ≠ freshId := fun e =>
      hp (List.mem_map.mpr ⟨p, (List.mem_filter.mp hm).1, e⟩)
    rw [isNonGroup_insertDirect_ne me otherUserId freshId now store _ hpf]
  have hnew : ((directParticipants me otherUserId freshId now).filter fun p =>
      isNonGroup (insertDirect me otherUserId freshId now store)
        p.conversation_id) =
      directParticipants me otherUserId freshId now := by
    have h3 := isNonGroup_insertDirect_fresh me otherUserId freshId now
      store hc
    unfold directParticipants at h3 ⊢
    simp only [List.filter_cons, List.filter_nil]
    simp [h3]
  rw [hfix, hnew, List.find?_append]
  have hold : (((pairRows me otherUserId store).filter fun p =>
      isNonGroup store p.conversation_id).find? fun p =>
        directCount me otherUserId
          (insertDirect me otherUserId freshId now store)
          p.conversation_id == 2) = none := by
    rw [List.find?_eq_none]
    intro p hm hbeq
    have hpf : p.conversation_id ≠ freshId := fun e =>
      hp (List.mem_map.mpr
        ⟨p, (List.mem_filter.mp ((List.mem_filter.mp hm).1)).1, e⟩)
    rw [directCount_insertDirect_ne me otherUserId freshId now store hp _
      hpf] at hbeq
    exact hall p hm hbeq
  rw [hold]
  have hcount := directCount_insertDirect_fresh me otherUserId freshId now
    store hc hp
  have hpos : (((directParticipants me otherUserId freshId now).find? fun p =>
      directCount me otherUserId
        (insertDirect me otherUserId freshId now store)
        p.conversation_id == 2)) = some
          { conversation_id := freshId, user_id := me, role := none,
            last_read_at := some now } := by
    unfold directParticipants
    rw [List.find?_cons_of_pos]
    simp [hcount]
  rw [hpos]
  rfl

/-! ### Theorem for C7 -/

/-- C7: calling startDirectChat for the same target twice in sequence yields
the same conversation id both times — the second call's candidate search
finds the conversation the first call selected or created (its pair count is
exactly 2) and reuses it. The freshness hypotheses say the store-assigned id
of the first call's insert does not collide with any existing conversation
id. -/
theorem c7_start_direct_chat_idempotent (me otherUserId fresh1 fresh2 : String)
    (now1 now2 : Int) (store : Store)
    (hc : fresh1 ∉ store.conversations.map Conversation.id)
    (hp : fresh1 ∉ store.participants.map Participant.conversation_id) :
    (startDirectChat me otherUserId fresh2 now2
        (startDirectChat me otherUserId fresh1 now1 store).2).1 =
      (startDirectChat me otherUserId fresh1 now1 store).1 := by
  cases h : existingDirectConv me otherUserId store with
  | some cid =>
    have e1 : startDirectChat me otherUserId fresh1 now1 store =
        (cid, store) := by
      unfold startDirectChat
      rw [h]
    rw [e1]
    unfold startDirectChat
    rw [h]
  | none =>
    have e1 : startDirectChat me otherUserId fresh1 now1 store =
        (fresh1, insertDirect me otherUserId fresh1 now1 store) := by
      unfold startDirectChat
      rw [h]
    have h2 := existingDirectConv_insertDirect me otherUserId fresh1 now1
      store hc hp h
    rw [e1]
    unfold startDirectChat
    rw [h2]

/-- Closed instance of C7: starting a direct chat twice from the empty store
selects the same conversation id both times. -/
theorem c7_start_direct_chat_idempotent_witness :
    (startDirectChat "u" "v" "c2" 1
        (startDirectChat "u" "v" "c1" 0
          { conversations := [], participants := [] }).2).1 =
      (startDirectChat "u" "v" "c1" 0
        { conversations := [], participants := [] }).1 :=
  c7_start_direct_chat_idempotent "u" "v" "c1" "c2" 0 1
    { conversations := [], participants := [] } (by decide) (by decide)

/-! ### Group chat creation -/

/-- The group-chat modal's local state: the selected member ids and the
typed group name. -/
structure GroupModalState where
  selectedUsers : List String
  groupName : String
  deriving Repr, DecidableEq

/-- createGroupChat: reject (alert and return, with no store call and the
modal state untouched) when fewer than 2 members are selected or the trimmed
name is empty; otherwise insert the group conversation, the creator's admin
row and one member row per selected user, then reset the modal state. The
Bool of the result records whether a group was created. -/
def createGroupChat (me freshId : String) (now : Int)
    (modal : GroupModalState) (store : Store) :
    Store × GroupModalState × Bool :=
  if modal.selectedUsers.length < 2 then (store, modal, false)
  else if (jsTrim modal.groupName).isEmpty then (store, modal, false)
  else
    ({ conversations := store.conversations ++
         [{ id := freshId, name := some (jsTrim modal.groupName),
            is_group := true, updated_at := now }],
       participants := store.participants ++
         ({ conversation_id := freshId, user_id := me,
            role := some ("admin"), last_read_at := some now } ::
           modal.selectedUsers.map fun userId =>
             { conversation_id := freshId, user_id := userId,
               role := some ("member"), last_read_at := some now }) },
     { selectedUsers := [], groupName := "" }, true)

/-! ### Theorem for C8 -/

/-- C8: with fewer than 2 selected members, or a name that trims to empty,
createGroupChat rejects before any store call — the store is returned
unchanged, the modal state is unchanged, and no group is created. -/
theorem c8_group_chat_rejects_without_store_calls (me freshId : String)
    (now : Int) (modal : GroupModalState) (store : Store)
    (h : modal.selectedUsers.length < 2 ∨
      (jsTrim modal.groupName).isEmpty = true) :
    createGroupChat me freshId now modal store = (store, modal, false) := by
  unfold createGroupChat
  rcases h with h | h
  · rw [if_pos h]
  · by_cases h2 : modal.selectedUsers.length < 2
    · rw [if_pos h2]
    · rw [if_neg h2, if_pos h]

/-- Closed instance of the C8 guard at a one-member selection. -/
theorem c8_group_chat_rejects_witness :
    createGroupChat "u" "g1" 0
        { selectedUsers := ["v"], groupName := "Team" }
        { conversations := [], participants := [] } =
      ({ conversations := [], participants := [] },
        { selectedUsers := ["v"], groupName := "Team" }, false) :=
  c8_group_chat_rejects_without_store_calls "u" "g1" 0
    { selectedUsers := ["v"], groupName := "Team" }
    { conversations := [], participants := [] } (Or.inl (by decide))

/-! ### Message thread: refresh load -/

/-- The ordering relation of the thread query's ascending order clause. -/
def createdAtLE (a b : Message) : Prop := a.created_at ≤ b.created_at

instance : DecidableRel createdAtLE := fun a b =>
  inferInstanceAs (Decidable (a.created_at ≤ b.created_at))

instance : IsTotal Message createdAtLE :=
  ⟨fun a b => Int.le_total a.created_at b.created_at⟩

instance : IsTrans Message createdAtLE :=
  ⟨fun _ _ _ h1 h2 => Int.le_trans h1 h2⟩

/-- The thread's refresh load: fetch every message of the conversation
ordered by created_at ascending. The store's ordered range query is modelled
as sorting the conversation's rows by created_at. -/
def loadMessages (conversationId : String) (storeMessages : List Message) :
    List Message :=
  List.insertionSort createdAtLE
    (storeMessages.filter fun m => m.conversation_id == conversationId)

/-- The setMessages call a refresh performs: the snapshot replaces the whole
local list (full reconciliation, not a merge). -/
def applyRefresh (snapshot : List Message) (_messages : List Message) :
    List Message :=
  snapshot

/-! ### Message thread: optimistic send -/

/-- The thread component's local state: the displayed message list and the
content of the input box. -/
structure ThreadState where
  messages : List Message
  newMessage : String
  deriving Repr, DecidableEq

/-- The synthetic id of the optimistic temporary message. -/
def tempIdOf (nowMs : Int) : String := "temp-" ++ toString nowMs

/-- sendMessage: return unchanged when the trimmed input is empty; otherwise
append the optimistic temporary message, clear the input, and insert the row
into the store (insertOk is the insert's outcome; dbId and dbNow are the id
and created_at the store assigns). On failure the temporary row is removed
by its synthetic id and the store is unchanged. Render-only sender fields are
omitted. -/
def sendMessage (userId conversationId : String) (nowMs : Int)
    (insertOk : Bool) (dbId : String) (dbNow : Int) (st : ThreadState)
    (storeMessages : List Message) : ThreadState × List Message :=
  if (jsTrim st.newMessage).isEmpty then (st, storeMessages)
  else
    let messageText := jsTrim st.newMessage
    let tempMessage : Message :=
      { id := tempIdOf nowMs, conversation_id := conversationId,
        sender_id := userId, content := messageText, created_at := nowMs,
        message_type := "text" }
    let optimistic : ThreadState :=
      { messages := st.messages ++ [tempMessage], newMessage := "" }
    if insertOk then
      ( optimistic,
        storeMessages ++
          [{ id := dbId, conversation_id := conversationId,
             sender_id := userId, content := messageText,
             created_at := dbNow, message_type := "text" }])
    else
      ({ optimistic with
          messages := optimistic.messages.filter fun m =>
            m.id != tempMessage.id },
        storeMessages)

/-! ### Message thread: poll fallback -/

/-- One tick of the poll fallback's guard: given the lastMessageCount
variable and the freshly polled row count, fire a refresh only when the
previously observed count is positive and the new count exceeds it; the
observed count is updated either way. -/
def pollTick (lastMessageCount currentCount : Nat) : Bool × Nat :=
  if 0 < lastMessageCount ∧ lastMessageCount < currentCount then
    (true, currentCount)
  else (false, currentCount)

/-- One poll interval of the fallback loop over state
(lastMessageCount, displayed list): count the conversation's rows, run the
tick's guard, and refresh the displayed list from the store when it fires. -/
def pollStep (conversationId : String) (s : Nat × List Message)
    (storeMessages : List Message) : Nat × List Message :=
  let currentCount :=
    (storeMessages.filter fun m =>
      m.conversation_id == conversationId).length
  let t := pollTick s.1 currentCount
  (t.2, if t.1 then loadMessages conversationId storeMessages else s.2)

/-! ### Theorem for C6 -/

/-- C6: after any refresh load — whatever the previously displayed list was —
the displayed list is sorted ascending by created_at; it has no duplicate
message ids provided the store's rows have distinct ids; and re-applying the
same refresh result is idempotent (a refresh replaces the whole list, so the
state after applying it twice equals the state after applying it once). -/
theorem c6_refresh_sorted_nodup_idempotent (cid : String)
    (storeMessages messages : List Message)
    (hids : (storeMessages.map Message.id).Nodup) :
    (applyRefresh (loadMessages cid storeMessages) messages).Sorted
        createdAtLE ∧
      ((applyRefresh (loadMessages cid storeMessages) messages).map
        Message.id).Nodup ∧
      applyRefresh (loadMessages cid storeMessages)
          (applyRefresh (loadMessages cid storeMessages) messages) =
        applyRefresh (loadMessages cid storeMessages) messages := by
  refine ⟨List.sorted_insertionSort createdAtLE _, ?_, rfl⟩
  have hperm := List.perm_insertionSort createdAtLE
    (storeMessages.filter fun m => m.conversation_id == cid)
  have hsub : ((storeMessages.filter fun m =>
      m.conversation_id == cid).map Message.id).Sublist
      (storeMessages.map Message.id) :=
    (List.filter_sublist storeMessages).map Message.id
  exact ((hperm.map Message.id).symm).nodup (hids.sublist hsub)

/-- Closed instance of C6 at a concrete two-message store. -/
theorem c6_refresh_sorted_nodup_idempotent_witness :
    (applyRefresh (loadMessages "c" [exMsgMine, exMsgOther]) []).Sorted
        createdAtLE ∧
      ((applyRefresh (loadMessages "c" [exMsgMine, exMsgOther]) []).map
        Message.id).Nodup ∧
      applyRefresh (loadMessages "c" [exMsgMine, exMsgOther])
          (applyRefresh (loadMessages "c" [exMsgMine, exMsgOther]) []) =
        applyRefresh (loadMessages "c" [exMsgMine, exMsgOther]) [] :=
  c6_refresh_sorted_nodup_idempotent "c" [exMsgMine, exMsgOther] []
    (by decide)

/-! ### Theorem for C10 -/

/-- C10: submitting the form with an input that trims to empty is a complete
no-op — sendMessage leaves the thread state (displayed list and input box)
and the store untouched, whatever the insert outcome would have been. -/
theorem c10_empty_send_is_noop (userId cid : String) (nowMs : Int)
    (insertOk : Bool) (dbId : String) (dbNow : Int) (st : ThreadState)
    (storeMessages : List Message)
    (h : (jsTrim st.newMessage).isEmpty = true) :
    sendMessage userId cid nowMs insertOk dbId dbNow st storeMessages =
      (st, storeMessages) := by
  unfold sendMessage
  rw [if_pos h]

/-- Closed instance of C10 at a whitespace-only input. -/
theorem c10_empty_send_is_noop_witness :
    sendMessage "u" "c" 100 true "d1" 101
        { messages := [exMsgOther], newMessage := "   " } [exMsgOther] =
      ({ messages := [exMsgOther], newMessage := "   " }, [exMsgOther]) :=
  c10_empty_send_is_noop "u" "c" 100 true "d1" 101
    { messages := [exMsgOther], newMessage := "   " } [exMsgOther]
    (by decide)

/-! ### Theorem for C2 -/

/-- C2: for a non-empty send, (success path) after the insert succeeds and
the eventual authoritative refresh replaces the list with the store's
snapshot, no message carries the synthetic temporary id and exactly one
message with the sent content is present; (failure path) after a failed
insert, no message with the temporary id remains in the displayed list and
the store is unchanged, so no persisted duplicate appears. The hypotheses
say the input does not trim to empty, the store-assigned id and the
pre-existing rows never collide with the synthetic id, and the sent content
is not already present. -/
theorem c2_optimistic_send_reconciles (userId cid : String) (nowMs : Int)
    (dbId : String) (dbNow : Int) (st : ThreadState)
    (storeMessages : List Message)
    (hne : (jsTrim st.newMessage).isEmpty = false)
    (hid : dbId ≠ tempIdOf nowMs)
    (hstore : ∀ m ∈ storeMessages, m.id ≠ tempIdOf nowMs)
    (hcontent : ∀ m ∈ storeMessages, m.content ≠ jsTrim st.newMessage) :
    (∀ m ∈ loadMessages cid
        (sendMessage userId cid nowMs true dbId dbNow st storeMessages).2,
      m.id ≠ tempIdOf nowMs) ∧
    (loadMessages cid
        (sendMessage userId cid nowMs true dbId dbNow st storeMessages).2).countP
      (fun m => m.content == jsTrim st.newMessage) = 1 ∧
    (∀ m ∈ (sendMessage userId cid nowMs false dbId dbNow st
        storeMessages).1.messages, m.id ≠ tempIdOf nowMs) ∧
    (sendMessage userId cid nowMs false dbId dbNow st storeMessages).2 =
      storeMessages := by
  have hne' : ¬((jsTrim st.newMessage).isEmpty = true) := by
    rw [hne]
    exact Bool.false_ne_true
  have e1 : sendMessage userId cid nowMs true dbId dbNow st storeMessages =
      ({ messages := st.messages ++
          [{ id := tempIdOf nowMs, conversation_id := cid,
             sender_id := userId, content := jsTrim st.newMessage,
             created_at := nowMs, message_type := "text" }],
         newMessage := "" },
        storeMessages ++
          [{ id := dbId, conversation_id := cid, sender_id := userId,
             content := jsTrim st.newMessage, created_at := dbNow,
             message_type := "text" }]) := by
    unfold sendMessage
    rw [if_neg hne']
    rfl
  have e2 : sendMessage userId cid nowMs false dbId dbNow st storeMessages =
      ({ messages := (st.messages ++
          [({ id := tempIdOf nowMs, conversation_id := cid,
              sender_id := userId, content := jsTrim st.newMessage,
              created_at := nowMs, message_type := "text" } :
            Message)]).filter fun m => m.id != tempIdOf nowMs,
         newMessage := "" },
        storeMessages) := by
    unfold sendMessage
    rw [if_neg hne']
    rfl
  refine ⟨?_, ?_, ?_, ?_⟩
  · rw [e1]
    intro m hm
    have hm2 := (List.mem_filter.mp
      ((List.mem_insertionSort createdAtLE).mp hm)).1
    rcases List.mem_append.mp hm2 with h1 | h1
    · exact hstore m h1
    · rcases List.mem_singleton.mp h1 with rfl
      exact hid
  · rw [e1]
    unfold loadMessages
    rw [(List.perm_insertionSort createdAtLE _).countP_eq,
      List.filter_append, List.countP_append]
    have hz : ((storeMessages.filter fun m =>
        m.conversation_id == cid).countP
          fun m => m.content == jsTrim st.newMessage) = 0 := by
      rw [List.countP_eq_zero]
      intro m hm
      have := hcontent m (List.mem_filter.mp hm).1
      simp [this]
    rw [hz]
    simp
  · rw [e2]
    intro m hm
    exact bne_iff_ne.mp (List.mem_filter.mp hm).2
  · rw [e2]

/-- Closed instance of C2 at a concrete send from an empty store. -/
theorem c2_optimistic_send_reconciles_witness :
    (∀ m ∈ loadMessages "c"
        (sendMessage "u" "c" 100 true "d1" 101
          { messages := [], newMessage := "hi" } []).2,
      m.id ≠ tempIdOf 100) ∧
    (loadMessages "c"
        (sendMessage "u" "c" 100 true "d1" 101
          { messages := [], newMessage := "hi" } []).2).countP
      (fun m => m.content == jsTrim "hi") = 1 ∧
    (∀ m ∈ (sendMessage "u" "c" 100 false "d1" 101
        { messages := [], newMessage := "hi" } []).1.messages,
      m.id ≠ tempIdOf 100) ∧
    (sendMessage "u" "c" 100 false "d1" 101
        { messages := [], newMessage := "hi" } []).2 = [] :=
  c2_optimistic_send_reconciles "u" "c" 100 "d1" 101
    { messages := [], newMessage := "hi" } [] (by decide) (by decide)
    (by simp) (by simp)

/-! ### Theorems for C3 -/

/-- The row that arrives while the push channel is dead in the C3
counterexample. -/
def exPollMsg : Message :=
  { id := "p1", conversation_id := "c", sender_id := "v", content := "ping",
    created_at := 7, message_type := "text" }

/-- C3 counterexample: a conversation that starts empty. The first poll
observes 0 rows; a message is then inserted; at the next poll the count (1)
exceeds the previously observed count (0), yet the guard requires the
previous count to be positive, so no refresh fires within that interval —
the displayed list stays empty and does not reflect the new message. -/
theorem c3_counterexample :
    pollStep "c" (pollStep "c" (0, []) []) [exPollMsg] = (1, []) ∧
      exPollMsg ∉ (pollStep "c" (pollStep "c" (0, []) []) [exPollMsg]).2 := by
  decide

/-- C3 (amended): the poll fallback triggers the full refresh within one
poll interval whenever the polled row count exceeds the previously observed
count AND the previously observed count was positive; the tick's refresh
replaces the displayed list with the authoritative load. When the previously
observed count is zero (a conversation that starts empty), the tick does not
refresh and only records the new count. -/
theorem c3_poll_refresh_needs_positive_count (cid : String) (last : Nat)
    (messages storeMessages : List Message)
    (hpos : 0 < last)
    (hinc : last < (storeMessages.filter fun m =>
      m.conversation_id == cid).length) :
    pollStep cid (last, messages) storeMessages =
      ((storeMessages.filter fun m => m.conversation_id == cid).length,
        loadMessages cid storeMessages) := by
  simp [pollStep, pollTick, hpos, hinc]

/-- Closed instance of the amended C3 at a previously observed count of 1
and a store holding two rows of the conversation. -/
theorem c3_poll_refresh_needs_positive_count_witness :
    pollStep "c" (1, []) [exMsgOther, exMsgMine] =
      (([exMsgOther, exMsgMine].filter fun m =>
          m.conversation_id == "c").length,
        loadMessages "c" [exMsgOther, exMsgMine]) :=
  c3_poll_refresh_needs_positive_count "c" 1 [] [exMsgOther, exMsgMine]
    (by decide) (by decide)

end DuChat
